import Mathlib

/-!
Verification development for the smart-collab-frontend repository.

This file shallowly embeds the core logic examined by the specification:

* the rich-content codec of `src/components/documents/RichTextEditor.tsx`
  (`renderRichContent`, `parseHtmlToRichContent`, `parseTextContent`),
  modelled over a DOM-like surface tree (the code builds an HTML string and
  immediately re-parses it through `innerHTML`; we embed the resulting DOM
  structure directly, which is exact whenever text does not contain markup
  metacharacters such as angle brackets);
* the autosave decision logic of
  `src/components/documents/DocumentEditor.tsx` (`saveDocument` and the
  auto-save `useEffect` dirtiness guard `content !== document.content`);
* the `CollaborativeEditor` session state machine of the collaboration
  service module (message handling, echo suppression, reconnect timer,
  `disconnect`, `sendTextChange`/`sendCursorPosition`, roster updates).

JavaScript-specific behaviour is embedded explicitly: `===` on objects is
reference identity (objects carry an explicit `ref` tag), `||` defaults use
JS truthiness (the empty string is falsy), absent JSON fields are `Option`.
-/

set_option maxHeartbeats 1000000

namespace SmartCollab

/-! ## Content model (the rich-content JSON tree of RichTextEditor.tsx) -/

/-- A mark on a text run: `{type:'strong'|'em'|'underline'|'code'}` or
`{type:'textStyle', attrs:{color?, backgroundColor?}}`. -/
inductive Mark where
  | strong
  | em
  | underline
  | code
  | textStyle (color : Option String) (backgroundColor : Option String)
deriving DecidableEq, Repr

/-- `{ type:'text', text, marks? }`; `marks = none` models an absent field. -/
structure TextRun where
  text : String
  marks : Option (List Mark) := none
deriving DecidableEq, Repr

/-- A paragraph's inline content. -/
abbrev Para := List TextRun

/-- `{ type:'listItem', content: paragraph[] }`. -/
structure LItem where
  paras : List Para
deriving DecidableEq, Repr

/-- The node grammar of the document tree (children of a `doc` node). -/
inductive RichNode where
  | heading (level : Option Nat) (content : List TextRun)
  | paragraph (content : List TextRun)
  | bulletList (items : List LItem)
  | orderedList (items : List LItem)
  | blockquote (paras : List Para)
  | codeBlock (language : Option String) (content : List TextRun)
  | image (src : Option String) (alt : Option String)
      (width : Option String) (height : Option String)
deriving DecidableEq, Repr

/-- `{ type:'doc', content: RichNode[] }`. -/
structure RichDoc where
  content : List RichNode
deriving DecidableEq, Repr

/-! ## DOM-like surface representation

`renderRichContent` produces an HTML string which the parser loads via
`tempDiv.innerHTML`; we embed the DOM tree that results.  Attributes that
the code reads or writes are kept explicitly. -/

/-- The element attributes read/written by the codec (`none` = absent). -/
structure EAttrs where
  className : Option String := none
  styleColor : Option String := none
  styleBg : Option String := none
  src : Option String := none
  alt : Option String := none
  styleWidth : Option String := none
  styleHeight : Option String := none
deriving DecidableEq, Repr

/-- A DOM node: a text node or an element with a tag, attributes, children. -/
inductive Dom where
  | text (s : String)
  | elem (tag : String) (attrs : EAttrs) (children : List Dom)

/-- JS truthiness of an optional string attribute: present and nonempty. -/
def truthyS : Option String → Bool
  | some s => s ≠ ""
  | none => false

/-- Whitespace as recognized by `String.prototype.trim`. -/
def isWs (c : Char) : Bool :=
  c = ' ' || c = '\t' || c = '\n' || c = '\r'

/-- JS `s.trim()`: strip leading and trailing whitespace. -/
def jsTrim (s : String) : String :=
  ⟨((s.data.dropWhile isWs).reverse.dropWhile isWs).reverse⟩

/-- JS `x || d` for an optional string field (empty string is falsy). -/
def jsOr (o : Option String) (d : String) : String :=
  match o with
  | some s => if s = "" then d else s
  | none => d

mutual

/-- `element.textContent` of a node (concatenation of descendant text). -/
def domText : Dom → String
  | .text s => s
  | .elem _ _ cs => domTextList cs

/-- `textContent` accumulated over a child list, in document order. -/
def domTextList : List Dom → String
  | [] => ""
  | d :: ds => domText d ++ domTextList ds

end

/-! ## Encoder: `renderRichContent` (RichTextEditor.tsx, lines 256-340)

The source builds an HTML string; we build the DOM that string parses to.
An empty interpolated string contributes no DOM node, so text children are
emitted only when the text is nonempty. -/

/-- One mark application of the encoder's `forEach` over `textNode.marks`:
`strong`/`em`/`underline`/`code` wrap in the corresponding element; a
`textStyle` mark wraps in a color `span` when `attrs.color` is truthy and
then in a background-color `span` when `attrs.backgroundColor` is truthy. -/
def wrapMark (m : Mark) (d : List Dom) : List Dom :=
  match m with
  | .strong => [.elem "strong" {} d]
  | .em => [.elem "em" {} d]
  | .underline => [.elem "u" {} d]
  | .code => [.elem "code" {} d]
  | .textStyle co bg =>
      let d1 := if truthyS co then [Dom.elem "span" { styleColor := co } d] else d
      if truthyS bg then [Dom.elem "span" { styleBg := bg } d1] else d1

/-- Sequential application of marks, first mark innermost (as in the code:
`text = wrap(text)` per mark, in list order). -/
def applyMarks (ms : List Mark) (d : List Dom) : List Dom :=
  match ms with
  | [] => d
  | m :: rest => applyMarks rest (wrapMark m d)

/-- Encoder for one text run of a paragraph: `let text = textNode.text`,
then wrap in mark elements when `textNode.marks` is present. -/
def renderRun (r : TextRun) : List Dom :=
  let base := if r.text = "" then [] else [Dom.text r.text]
  match r.marks with
  | none => base
  | some ms => applyMarks ms base

/-- `<li>` encoder: `item.content?.[0]?.content?.[0]?.text || ''`. -/
def renderItem (it : LItem) : Dom :=
  let t := match it.paras.head? >>= List.head? with
           | some r => r.text
           | none => ""
  .elem "li" {} (if t = "" then [] else [Dom.text t])

/-- Encoder for one document node (one case of the `switch` in
`renderRichContent`); every case produces exactly one top-level element. -/
def renderNode : RichNode → Dom
  | .heading lvl rs =>
      let l := match lvl with
               | some n => if n = 0 then 1 else n
               | none => 1
      let t := match rs.head? with
               | some r => r.text
               | none => ""
      .elem ("h" ++ toString l) {} (if t = "" then [] else [Dom.text t])
  | .paragraph rs =>
      let cs := (rs.map renderRun).flatten
      .elem "p" {} (if cs.isEmpty then [Dom.elem "br" {} []] else cs)
  | .bulletList items => .elem "ul" {} (items.map renderItem)
  | .orderedList items => .elem "ol" {} (items.map renderItem)
  | .blockquote ps =>
      let t := match ps.head? >>= List.head? with
               | some r => r.text
               | none => ""
      .elem "blockquote" {} (if t = "" then [] else [Dom.text t])
  | .codeBlock lang rs =>
      let t := match rs.head? with
               | some r => r.text
               | none => ""
      let l := jsOr lang ""
      .elem "pre" {}
        [.elem "code" { className := some ("language-" ++ l) }
          (if t = "" then [] else [Dom.text t])]
  | .image src alt w h =>
      .elem "img"
        { src := some (match src with | some s => s | none => "undefined"),
          alt := some (jsOr alt ""),
          styleWidth := some (jsOr w "auto"),
          styleHeight := some (jsOr h "auto") } []

/-- `renderRichContent`: map each node of the document to its surface form. -/
def renderRichContent (d : RichDoc) : List Dom :=
  d.content.map renderNode

/-! ## Decoder: `parseHtmlToRichContent` (RichTextEditor.tsx, lines 343-540) -/

/-- Ancestor information (tag and attributes) used for mark discovery. -/
structure AncElem where
  tag : String
  attrs : EAttrs
deriving Repr

/-- The marks contributed by one ancestor element when `parseTextContent`
walks the parent chain of a text node. -/
def elemMarks (a : AncElem) : List Mark :=
  match a.tag with
  | "strong" => [.strong]
  | "b" => [.strong]
  | "em" => [.em]
  | "i" => [.em]
  | "u" => [.underline]
  | "code" => [.code]
  | "span" =>
      (if truthyS a.attrs.styleColor then [Mark.textStyle a.attrs.styleColor none] else [])
        ++ (if truthyS a.attrs.styleBg then [Mark.textStyle none a.attrs.styleBg] else [])
  | _ => []

/-- Marks along an ancestor chain (innermost ancestor first, as the code's
`while (parent && parent !== element)` loop pushes them). -/
def marksOf (anc : List AncElem) : List Mark :=
  (anc.map elemMarks).flatten

/-- `marks.length > 0 ? marks : undefined` of `parseTextContent`. -/
def optMarks (ms : List Mark) : Option (List Mark) :=
  if ms.isEmpty then none else some ms

mutual

/-- The tree-walker body of `parseTextContent`: every descendant text node
with non-whitespace content becomes a run whose marks come from its
ancestor chain below the walked element. -/
def runsUnder (anc : List AncElem) : Dom → List TextRun
  | .text s =>
      if jsTrim s = "" then []
      else [{ text := s, marks := optMarks (marksOf anc) }]
  | .elem tag attrs cs => runsUnderList (⟨tag, attrs⟩ :: anc) cs

/-- Pre-order accumulation of `runsUnder` over a sibling list. -/
def runsUnderList (anc : List AncElem) : List Dom → List TextRun
  | [] => []
  | d :: ds => runsUnder anc d ++ runsUnderList anc ds

end

/-- `parseTextContent(element)`: collect the runs below the element's
children; when none survive, fall back to a single run carrying the
element's full `textContent` (with no marks). -/
def parseTextContent (cs : List Dom) : List TextRun :=
  let r := runsUnderList [] cs
  if r.isEmpty then [{ text := domTextList cs, marks := none }] else r

/-- `element.children`: element children only (text nodes excluded). -/
def elemChildren (cs : List Dom) : List Dom :=
  cs.filter fun d => match d with
    | .elem _ _ _ => true
    | .text _ => false

/-- `querySelector('code')`: first descendant element with tag `code`,
in document order. -/
def firstCode : List Dom → Option Dom
  | [] => none
  | .text _ :: rest => firstCode rest
  | .elem tag a cs :: rest =>
      if tag = "code" then some (.elem tag a cs)
      else
        match firstCode cs with
        | some e => some e
        | none => firstCode rest

/-- JS `s.replace(pat, '')` on a plain-string pattern: remove the first
occurrence of `pat`, scanning left to right (character-list version). -/
def removeFirstSub (pat : List Char) : List Char → List Char
  | [] => if pat.isPrefixOf ([] : List Char) then ([] : List Char).drop pat.length else []
  | c :: cs =>
      if pat.isPrefixOf (c :: cs) then (c :: cs).drop pat.length
      else c :: removeFirstSub pat cs

/-- JS `s.replace(pat, '')` on strings. -/
def jsReplaceOnce (s pat : String) : String :=
  ⟨removeFirstSub pat.data s.data⟩

/-- Decoder for one top-level child of the surface (`forEach` body of
`parseHtmlToRichContent`): trimmed nonempty stray text is coerced into a
paragraph; recognized elements map to their node kind; everything else is
skipped. -/
def parseTop : Dom → List RichNode
  | .text s =>
      let t := jsTrim s
      if t = "" then [] else [.paragraph [{ text := t, marks := none }]]
  | .elem tag attrs cs =>
      match tag with
      | "h1" => [.heading (some 1) [{ text := domTextList cs, marks := none }]]
      | "h2" => [.heading (some 2) [{ text := domTextList cs, marks := none }]]
      | "h3" => [.heading (some 3) [{ text := domTextList cs, marks := none }]]
      | "h4" => [.heading (some 4) [{ text := domTextList cs, marks := none }]]
      | "h5" => [.heading (some 5) [{ text := domTextList cs, marks := none }]]
      | "h6" => [.heading (some 6) [{ text := domTextList cs, marks := none }]]
      | "p" => [.paragraph (parseTextContent cs)]
      | "br" => [.paragraph [{ text := "", marks := none }]]
      | "ul" =>
          [.bulletList ((elemChildren cs).map fun li =>
            ⟨[[{ text := domText li, marks := none }]]⟩)]
      | "ol" =>
          [.orderedList ((elemChildren cs).map fun li =>
            ⟨[[{ text := domText li, marks := none }]]⟩)]
      | "blockquote" =>
          [.blockquote [[{ text := domTextList cs, marks := none }]]]
      | "pre" =>
          let codeText := match firstCode cs with
                          | some e => domText e
                          | none => ""
          let language := match firstCode cs with
                          | some (.elem _ a _) =>
                              jsReplaceOnce (match a.className with
                                             | some c => c
                                             | none => "") "language-"
                          | _ => ""
          [.codeBlock (some language) [{ text := codeText, marks := none }]]
      | "img" =>
          [.image (some (match attrs.src with | some s => s | none => ""))
            (some (match attrs.alt with | some s => s | none => ""))
            (some (if truthyS attrs.styleWidth
                   then (match attrs.styleWidth with | some s => s | none => "")
                   else "0"))
            (some (if truthyS attrs.styleHeight
                   then (match attrs.styleHeight with | some s => s | none => "")
                   else "0"))]
      | _ => []

/-- `parseHtmlToRichContent`: parse every top-level child and wrap the
collected nodes in a `doc`. -/
def parseHtmlToRichContent (l : List Dom) : RichDoc :=
  ⟨(l.map parseTop).flatten⟩

/-! ## DocumentEditor.tsx: content state, dirtiness guard, `saveDocument`

The editor's `content` state is `any`: a string, `null`, a `doc`-typed
object, or some other object.  Objects carry an explicit heap reference so
that JavaScript `===`/`!==` (reference identity) can be embedded. -/

/-- A JS value held in the editor's `content` state (or `document.content`). -/
inductive JsContent where
  | nullv
  | str (s : String)
  | obj (ref : Nat) (tree : RichDoc)
  | otherObj (ref : Nat)
deriving DecidableEq, Repr

/-- JS strict equality `===` on such values: value equality for strings,
reference identity for objects. -/
def jsStrictEq : JsContent → JsContent → Bool
  | .nullv, .nullv => true
  | .str a, .str b => a == b
  | .obj r1 _, .obj r2 _ => r1 == r2
  | .otherObj r1, .otherObj r2 => r1 == r2
  | _, _ => false

/-- The guard of the auto-save `useEffect` (DocumentEditor.tsx line 68):
`content !== document.content || title !== document.title`; when true, a
2-second save timer is (re)armed. -/
def autosaveDirty (content : JsContent) (title : String)
    (docContent : JsContent) (docTitle : String) : Bool :=
  !jsStrictEq content docContent || title != docTitle

/-- `document_type` of a loaded document. -/
inductive DocType where
  | text
  | markdown
  | rich_text
  | wysiwyg
deriving DecidableEq, Repr

/-- The fields of the loaded document that `saveDocument` reads. -/
structure LoadedDoc where
  title : String
  content : JsContent
  document_type : DocType
deriving DecidableEq, Repr

/-- The component state that `saveDocument`'s decision logic reads. -/
structure EditorState where
  document : Option LoadedDoc
  content : JsContent
  title : String
  saving : Bool
  isNewDocument : Bool
deriving DecidableEq, Repr

/-- Content normalization of `saveDocument`: every document type converts a
string to a one-paragraph `doc` and replaces improperly-structured content
by a default empty-paragraph `doc`; for plain-text/markdown any object
(even a non-`doc` one) passes through. -/
def normalizeContent (dt : DocType) (c : JsContent) : JsContent :=
  let wrapStr (s : String) : JsContent :=
    .obj 0 ⟨[.paragraph [{ text := s, marks := none }]]⟩
  let defaultDoc : JsContent :=
    .obj 0 ⟨[.paragraph [{ text := "", marks := none }]]⟩
  match dt with
  | .rich_text | .wysiwyg =>
      match c with
      | .str s => wrapStr s
      | .obj r t => .obj r t
      | .nullv => defaultDoc
      | .otherObj _ => defaultDoc
  | .text | .markdown =>
      match c with
      | .str s => wrapStr s
      | .obj r t => .obj r t
      | .otherObj r => .otherObj r
      | .nullv => defaultDoc

/-- The observable outcome of one `saveDocument()` invocation. -/
inductive SaveAction where
  | createCall
  | noCall
  | autoSaveCall (contentToSave : JsContent)
deriving DecidableEq, Repr

/-- `saveDocument` (DocumentEditor.tsx lines 273-406), reduced to its
network-call decision: new documents go through `createDocument`; with no
loaded document nothing happens; otherwise the content is normalized and
`documentService.autoSaveDocument` is called unless the normalized content
is null/undefined.  Note that the code never consults the `saving` flag nor
compares against a last-saved snapshot. -/
def saveDocument (s : EditorState) : SaveAction :=
  if s.isNewDocument && s.document.isNone then .createCall
  else
    match s.document with
    | none => .noCall
    | some d =>
        let contentToSave := normalizeContent d.document_type s.content
        if contentToSave = .nullv then .noCall else .autoSaveCall contentToSave

/-- Number of autosave network calls issued by a sequence of invocations
from the same state (no intervening edit: the decision inputs of
`saveDocument` are unchanged between the calls). -/
def autosaveCallCount (s : EditorState) (n : Nat) : Nat :=
  n * (match saveDocument s with
       | .autoSaveCall _ => 1
       | _ => 0)

/-! ## CollaborativeEditor: session state machine

Embedded from the collaboration service module.  Callbacks and
transport sends are modelled as emitted events; `setTimeout` reconnect
scheduling is modelled by a counter of pending backoff timers plus an
explicit elapse transition. -/

/-- A cursor position payload `{x, y, line, column}`. -/
structure Cursor where
  x : Int
  y : Int
  line : Int
  column : Int
deriving DecidableEq, Repr

/-- The participant payload stored in the roster (the `user_info` /
`RoomParticipant` object is stored wholesale; fields may be absent). -/
structure PInfo where
  username : Option String := none
  userRole : Option String := none
  cursorPosition : Option Cursor := none
deriving DecidableEq, Repr

/-- A wire message (fields of the `WebSocketMessage` interface read by the
embedded logic; `position` is a number/object union, split into `posNum`
and `posCursor`; `none` = absent field). -/
structure WsMsg where
  type : String
  token : Option String := none
  user_role : Option String := none
  operation : Option String := none
  posNum : Option Int := none
  posCursor : Option Cursor := none
  content : Option String := none
  length : Option Int := none
  selStart : Option Int := none
  selEnd : Option Int := none
  timestamp : Option Int := none
  user_id : Option String := none
  user_info : Option PInfo := none
  message : Option String := none
  participants : Option (List (Int × PInfo)) := none
deriving DecidableEq, Repr

/-- `WebSocket.readyState` of a live socket object. -/
inductive WsReady where
  | connecting
  | opened
  | closing
  | closed
deriving DecidableEq, Repr

/-- The `CollaborativeEditor` instance state (`ws = none` models
`this.ws === null`; map keys are `Option String` because the code can use
an absent `user_id` as a JS `Map` key; `pendingReconnects` counts armed,
un-elapsed reconnect timeouts). -/
structure CollabState where
  ws : Option WsReady
  isAuthenticated : Bool
  participants : List (Option String × PInfo)
  cursors : List (Option String)
  currentUserId : Option String
  pendingReconnects : Nat
deriving DecidableEq, Repr

/-- Observable effects of the session logic. -/
inductive CEvent where
  | wsSend (m : WsMsg)
  | cbTextChange (op : String) (pos : Int) (content : String) (len : Option Int)
  | cbCursorChange (uid : String) (c : Cursor)
  | cbParticipants (ps : List PInfo)
  | cbError (msg : String)
  | cbConnection (b : Bool)
  | connectCall
deriving DecidableEq, Repr

/-- JS `Map.prototype.set`: replace in place when the key exists (insertion
order preserved), otherwise append. -/
def mapSet (m : List (Option String × PInfo)) (k : Option String) (v : PInfo) :
    List (Option String × PInfo) :=
  if m.any (fun p => p.1 == k) then
    m.map fun p => if p.1 == k then (k, v) else p
  else m ++ [(k, v)]

/-- JS `Map.prototype.delete` (on the roster). -/
def mapDelete (m : List (Option String × PInfo)) (k : Option String) :
    List (Option String × PInfo) :=
  m.filter fun p => !(p.1 == k)

/-- JS `Map.prototype.get`. -/
def mapGet (m : List (Option String × PInfo)) (k : Option String) : Option PInfo :=
  match m.find? (fun p => p.1 == k) with
  | some p => some p.2
  | none => none

/-- `Array.from(this.participants.values())`, in insertion order. -/
def mapValues (m : List (Option String × PInfo)) : List PInfo :=
  m.map Prod.snd

/-- JS `||` default for an optional string field. -/
def jsOrStr (o : Option String) (d : String) : String := jsOr o d

/-- JS strict equality `data.user_id === this.currentUserId`, where the
left `none` is an absent field (`undefined`) and the right `none` is
`null`; `undefined === null` is false. -/
def jsEqUid : Option String → Option String → Bool
  | some a, some b => a == b
  | _, _ => false

/-- `send(data)` (the private method): serialize and transmit only when
the socket exists and is OPEN. -/
def sendRaw (s : CollabState) (m : WsMsg) : List CEvent :=
  if s.ws = some .opened then [.wsSend m] else []

/-- JS truthiness for `if (data.user_id)`. -/
def truthyUid (o : Option String) : Bool := truthyS o

/-- `handleMessage` (the `switch (data.type)` dispatcher), returning the
updated instance state and the emitted effects, in order. -/
def handleMessage (s : CollabState) (m : WsMsg) : CollabState × List CEvent :=
  match m.type with
  | "connection_established" => (s, [])
  | "authenticated" =>
      let s1 := { s with isAuthenticated := true }
      (s1, sendRaw s1 { type := "join_room", user_role := some "editor" })
  | "room_joined" =>
      match m.participants with
      | some ps =>
          let np := ps.foldl (fun acc p => mapSet acc (some (toString p.1)) p.2) []
          ({ s with participants := np }, [.cbParticipants (mapValues np)])
      | none => (s, [])
  | "user_joined" =>
      match m.user_info with
      | some info =>
          let np := mapSet s.participants m.user_id info
          ({ s with participants := np }, [.cbParticipants (mapValues np)])
      | none => (s, [])
  | "user_left" =>
      if truthyUid m.user_id then
        let np := mapDelete s.participants m.user_id
        ({ s with participants := np, cursors := s.cursors.filter (fun k => !(k == m.user_id)) },
         [.cbParticipants (mapValues np)])
      else (s, [])
  | "text_change" =>
      if jsEqUid m.user_id s.currentUserId then (s, [])
      else
        (s, [.cbTextChange (jsOrStr m.operation "insert")
              (match m.posNum with | some n => n | none => 0)
              (jsOrStr m.content "") m.length])
  | "cursor_position" =>
      match m.user_id, m.posCursor with
      | some uid, some c =>
          if uid ≠ "" then (s, [.cbCursorChange uid c]) else (s, [])
      | _, _ => (s, [])
  | "user_presence" =>
      match m.user_id, m.user_info with
      | some uid, some info =>
          if uid ≠ "" then
            let np := mapSet s.participants (some uid) info
            ({ s with participants := np }, [.cbParticipants (mapValues np)])
          else (s, [])
      | _, _ => (s, [])
  | "error" => (s, [.cbError (jsOrStr m.message "Unknown error")])
  | _ => (s, [])

/-- `disconnect()`: close and drop the socket, clear the auth flag and both
maps.  (The `close` event it triggers on the old socket is delivered
asynchronously; see `closeEvent`.) -/
def disconnectFn (s : CollabState) : CollabState :=
  { s with ws := none, isAuthenticated := false, participants := [], cursors := [] }

/-- `handleDisconnection()`: clear the auth flag and schedule a reconnect
attempt after the fixed 3-second backoff (unconditionally). -/
def handleDisconnection (s : CollabState) : CollabState :=
  { s with isAuthenticated := false, pendingReconnects := s.pendingReconnects + 1 }

/-- The `ws.onclose` handler: the closing socket reaches CLOSED, then
`handleDisconnection()` runs and `onConnectionChange(false)` fires. -/
def closeEvent (s : CollabState) : CollabState × List CEvent :=
  let s1 := { s with ws := match s.ws with
                           | some _ => some WsReady.closed
                           | none => none }
  (handleDisconnection s1, [.cbConnection false])

/-- The scheduled reconnect callback firing after the backoff: `connect()`
is invoked iff `!this.ws || this.ws.readyState === CLOSED`. -/
def reconnectElapse (s : CollabState) : CollabState × List CEvent :=
  match s.pendingReconnects with
  | 0 => (s, [])
  | n + 1 =>
      let s1 := { s with pendingReconnects := n }
      if s1.ws = none ∨ s1.ws = some .closed then (s1, [.connectCall]) else (s1, [])

/-- The wire message built by `sendTextChange` (`timestamp: Date.now()`
passed in as `now`). -/
def txMsg (op : String) (pos : Int) (c : String) (len : Option Int)
    (now : Int) : WsMsg :=
  { type := "text_change", operation := some op, posNum := some pos,
    content := some c, length := len, timestamp := some now }

/-- The wire message built by `sendCursorPosition`. -/
def curMsg (pos : Cursor) (selS selE : Option Int) (now : Int) : WsMsg :=
  { type := "cursor_position", posCursor := some pos, selStart := selS,
    selEnd := selE, timestamp := some now }

/-- `sendTextChange`: no-op unless `isAuthenticated`; otherwise goes
through `send` (which additionally requires an OPEN socket). -/
def sendTextChange (s : CollabState) (op : String) (pos : Int) (c : String)
    (len : Option Int) (now : Int) : List CEvent :=
  if !s.isAuthenticated then []
  else sendRaw s (txMsg op pos c len now)

/-- `sendCursorPosition`: same gating as `sendTextChange`. -/
def sendCursorPosition (s : CollabState) (pos : Cursor)
    (selS selE : Option Int) (now : Int) : List CEvent :=
  if !s.isAuthenticated then []
  else sendRaw s (curMsg pos selS selE now)

/-- `getParticipants()`. -/
def getParticipants (s : CollabState) : List PInfo := mapValues s.participants

/-- `isConnected()`: `this.ws?.readyState === WebSocket.OPEN &&
this.isAuthenticated`. -/
def isConnected (s : CollabState) : Bool :=
  (match s.ws with
   | some r => r == .opened
   | none => false) && s.isAuthenticated

/-- Folding a sequence of inbound messages through `handleMessage`
(discarding effects): the state after an arbitrary message history. -/
def runMsgs (s : CollabState) : List WsMsg → CollabState
  | [] => s
  | m :: ms => runMsgs (handleMessage s m).1 ms

/-! ## The round-trip subclass of document trees

The codec loses information in general (see the C1 counterexample); the
round-trip law does hold on the following subclass.  `safeText` excludes
markup metacharacters, which the encoder never escapes — on such text the
DOM obtained by re-parsing the produced HTML string is exactly the DOM
modelled here, so the DOM-level embedding is exact on this subclass. -/

/-- Text free of HTML/attribute metacharacters (the encoder does not
escape, so only such text survives the string surface verbatim). -/
def safeText (s : String) : Bool :=
  s.data.all fun c => c ≠ '<' && c ≠ '>' && c ≠ '&' && c ≠ '"'

/-- Marks the codec translates faithfully: the four element marks, and
`textStyle` carrying exactly one nonempty color attribute (a mark with
both colors is split in two by the decoder; an empty/absent color is
dropped by the encoder). -/
def validMark : Mark → Bool
  | .strong => true
  | .em => true
  | .underline => true
  | .code => true
  | .textStyle co bg =>
      match co, bg with
      | some c, none => c ≠ "" && safeText c
      | none, some b => b ≠ "" && safeText b
      | _, _ => false

/-- An unmarked text run of safe text (the shape the decoder produces for
headings, list items, blockquotes and code blocks). -/
def plainRun (r : TextRun) : Bool :=
  match r.marks with
  | none => safeText r.text
  | some _ => false

/-- A paragraph run that round-trips: safe text; if marks are present they
are valid, nonempty, and the text is not whitespace-only (the decoder's
tree walker skips whitespace-only text nodes, falling back to a mark-less
run). -/
def simpleParaRun (r : TextRun) : Bool :=
  safeText r.text &&
  match r.marks with
  | none => true
  | some [] => false
  | some ms => ms.all validMark && jsTrim r.text != ""

/-- A list item of the shape the decoder produces: one paragraph holding
one unmarked run. -/
def simpleItem (it : LItem) : Bool :=
  match it.paras with
  | [[r]] => plainRun r
  | _ => false

/-- Nodes on which the codec round-trips: single-run blocks (the encoder
reads only `content[0]`), heading levels 1-6, explicit code-block
language, no images. -/
def simpleNode : RichNode → Bool
  | .heading (some l) [r] => decide (1 ≤ l) && decide (l ≤ 6) && plainRun r
  | .heading _ _ => false
  | .paragraph [r] => simpleParaRun r
  | .paragraph _ => false
  | .bulletList items => items.all simpleItem
  | .orderedList items => items.all simpleItem
  | .blockquote [[r]] => plainRun r
  | .blockquote _ => false
  | .codeBlock (some lang) [r] => plainRun r && safeText lang
  | .codeBlock _ _ => false
  | .image _ _ _ _ => false

/-- Document trees in the round-trip subclass. -/
def simpleDoc (d : RichDoc) : Bool := d.content.all simpleNode

/-- The element tags the decoder recognizes at the top level. -/
def recognizedTags : List String :=
  ["h1", "h2", "h3", "h4", "h5", "h6", "p", "br", "ul", "ol",
   "blockquote", "pre", "img"]

/-! ## Concrete states used by witnesses and counterexamples -/

/-- A session state right after the transport opened (socket OPEN, not yet
authenticated), for a local user `"me"`. -/
def sConnEx : CollabState :=
  { ws := some .opened, isAuthenticated := false, participants := [],
    cursors := [], currentUserId := some "me", pendingReconnects := 0 }

/-- An Active session state (authenticated and joined). -/
def sActiveEx : CollabState :=
  { sConnEx with isAuthenticated := true }

/-- A small document tree. -/
def T0ex : RichDoc := ⟨[.paragraph [{ text := "Hello", marks := none }]]⟩

/-- A role-only presence update for participant `"7"`. -/
def mPresenceEx : WsMsg :=
  { type := "user_presence", user_id := some "7",
    user_info := some { userRole := some "editor" } }

/-- A cursor-only presence update for participant `"7"`. -/
def mPresenceCursorEx : WsMsg :=
  { type := "user_presence", user_id := some "7",
    user_info := some { cursorPosition := some ⟨1, 2, 3, 4⟩ } }

/-- A `cursor_position` message for participant `"7"`. -/
def mCursorEx : WsMsg :=
  { type := "cursor_position", user_id := some "7",
    posCursor := some ⟨1, 2, 3, 4⟩ }

/-- An inbound `text_change` whose sender is the local user `"me"`. -/
def mEchoEx : WsMsg :=
  { type := "text_change", user_id := some "me", operation := some "insert",
    posNum := some 3, content := some "x" }

/-- An authentication-failure `error` message. -/
def mAuthFailEx : WsMsg :=
  { type := "error", message := some "Invalid or expired collaboration token" }

/-- An editor state with a loaded rich-text document whose save is in
flight (`saving = true`) and whose content is a fresh object structurally
equal to the stored one. -/
def sEdEx : EditorState :=
  { document := some { title := "A", content := .obj 0 T0ex,
                       document_type := .rich_text },
    content := .obj 1 T0ex, title := "A", saving := true,
    isNewDocument := false }

/-- A document tree in the round-trip subclass exercising every supported
node kind. -/
def TsimpleEx : RichDoc :=
  ⟨[.heading (some 2) [{ text := "Title", marks := none }],
    .paragraph [{ text := "hello", marks := some [.strong, .em, .textStyle (some "red") none] }],
    .paragraph [{ text := "", marks := none }],
    .paragraph [{ text := "plain", marks := none }],
    .bulletList [⟨[[{ text := "x", marks := none }]]⟩, ⟨[[{ text := "", marks := none }]]⟩],
    .orderedList [⟨[[{ text := "y", marks := none }]]⟩],
    .blockquote [[{ text := "quoted", marks := none }]],
    .codeBlock (some "js") [{ text := "let a = 1", marks := none }]]⟩

/-! ## Helper lemmas -/

theorem strAppend_empty (t : String) : t ++ "" = t := by
  cases t with
  | mk d =>
      show String.mk (d ++ []) = String.mk d
      rw [List.append_nil]

theorem handleMessage_currentUserId (s : CollabState) (m : WsMsg) :
    (handleMessage s m).1.currentUserId = s.currentUserId := by
  unfold handleMessage
  repeat' split
  all_goals rfl

theorem runMsgs_currentUserId (ms : List WsMsg) (s : CollabState) :
    (runMsgs s ms).currentUserId = s.currentUserId := by
  induction ms generalizing s with
  | nil => rfl
  | cons m rest ih =>
      rw [runMsgs, ih, handleMessage_currentUserId]

/-! ## C2: echo suppression -/

/-- C2.  For every inbound `text_change` message whose `user_id` equals
the local session's current user id, the message is not applied to local
content: `handleTextChange` returns before invoking `onTextChange`, so no
event at all is emitted and the state is unchanged — after any prior
message history. -/
theorem echo_suppression (s0 : CollabState) (history : List WsMsg)
    (m : WsMsg) (u : String) (hu : s0.currentUserId = some u)
    (hty : m.type = "text_change") (hid : m.user_id = some u) :
    handleMessage (runMsgs s0 history) m = (runMsgs s0 history, []) := by
  have hcur : (runMsgs s0 history).currentUserId = some u := by
    rw [runMsgs_currentUserId, hu]
  unfold handleMessage
  rw [hty, hid, hcur]
  simp [jsEqUid]

/-- Witness for C2 at a concrete state and message. -/
theorem echo_suppression_witness :
    handleMessage (runMsgs sActiveEx [mPresenceEx]) mEchoEx
      = (runMsgs sActiveEx [mPresenceEx], []) :=
  echo_suppression sActiveEx [mPresenceEx] mEchoEx "me" rfl rfl rfl

/-! ## C5: outbound sends and the session state -/

/-- C5 counterexample.  The claim says outbound sends are dropped in every
state other than Active (Active = `room_joined` received).  But the code
gates sends on `isAuthenticated`, which is set already on `authenticated`:
in the Joining state (after `authenticated`, before `room_joined`)
`sendTextChange` does transmit. -/
theorem send_joining_counterexample :
    sendTextChange ((handleMessage sConnEx { type := "authenticated" }).1)
      "insert" 0 "x" none 0 ≠ [] := by decide

/-- C5 amended.  `sendTextChange`/`sendCursorPosition` transmit exactly
when `isAuthenticated` is set and the socket is OPEN — i.e. they are
silently dropped (no throw, no event) in Disconnected, Connecting and
Authenticating, but do transmit in both Joining and Active. -/
theorem send_gated_on_auth_and_open (s : CollabState) (op : String)
    (pos : Int) (c : String) (len : Option Int) (now : Int) (cur : Cursor)
    (ss se : Option Int) :
    sendTextChange s op pos c len now =
      (if s.isAuthenticated = true ∧ s.ws = some .opened
       then [CEvent.wsSend (txMsg op pos c len now)]
       else [])
    ∧ sendCursorPosition s cur ss se now =
      (if s.isAuthenticated = true ∧ s.ws = some .opened
       then [CEvent.wsSend (curMsg cur ss se now)]
       else []) := by
  unfold sendTextChange sendCursorPosition sendRaw
  constructor
  all_goals
    rcases ha : s.isAuthenticated with _ | _ <;>
      rcases hw : s.ws with _ | r <;>
      simp [ha, hw]

/-! ## C6: authentication failure and reconnection -/

/-- C6 counterexample.  The claim says an authentication failure
terminates the session with no reconnection.  In the code an `error`
message (e.g. an invalid/expired collaboration token) changes no state at
all — it only fires `onError` — and when the server then closes the
transport, `handleDisconnection` schedules the 3-second backoff which
issues `connect()`.  So a `connect()` is issued without the caller
re-authenticating. -/
theorem auth_error_reconnect_counterexample :
    handleMessage sActiveEx mAuthFailEx
      = (sActiveEx, [.cbError "Invalid or expired collaboration token"])
    ∧ (reconnectElapse
        (closeEvent (handleMessage sActiveEx mAuthFailEx).1).1).2
      = [CEvent.connectCall] := by decide

/-- C6 amended.  An `error` message (authentication failure included)
does not terminate the session: the state is unchanged and only `onError`
fires; reconnection is driven solely by transport close, which always
schedules a backoff whose elapse issues `connect()` — for authentication
failures exactly as for generic disconnects. -/
theorem error_message_keeps_state_close_schedules (s : CollabState)
    (m : WsMsg) (h : m.type = "error") :
    handleMessage s m = (s, [.cbError (jsOrStr m.message "Unknown error")])
    ∧ (closeEvent s).1.pendingReconnects = s.pendingReconnects + 1
    ∧ (reconnectElapse (closeEvent s).1).2 = [CEvent.connectCall] := by
  refine ⟨?_, rfl, ?_⟩
  · unfold handleMessage
    rw [h]
    simp
  · unfold reconnectElapse closeEvent handleDisconnection
    cases s.ws <;> simp

/-- Witness for C6's amended theorem at a concrete state and message. -/
theorem error_message_keeps_state_close_schedules_witness :
    handleMessage sActiveEx { type := "error", message := some "boom" }
        = (sActiveEx, [.cbError "boom"])
    ∧ (closeEvent sActiveEx).1.pendingReconnects
        = sActiveEx.pendingReconnects + 1
    ∧ (reconnectElapse (closeEvent sActiveEx).1).2 = [CEvent.connectCall] := by
  have h := error_message_keeps_state_close_schedules sActiveEx
    { type := "error", message := some "boom" } rfl
  exact ⟨by rw [h.1]; decide, h.2.1, h.2.2⟩

/-! ## C7: disconnect() does not cancel the reconnect backoff -/

/-- C7 (code bug).  The spec requires `disconnect()` to cancel any pending
reconnect backoff.  In the code `disconnect()` closes the socket and nulls
`this.ws`, but the `close` event it triggers runs `handleDisconnection`,
which schedules the backoff anyway; when it elapses, `this.ws` is `null`,
so `connect()` is issued — a reconnect after explicit teardown. -/
theorem disconnect_reconnect_leak :
    (reconnectElapse (closeEvent (disconnectFn sActiveEx)).1).2
      = [CEvent.connectCall] := by decide

/-! ## C8: roster updates replace, they do not merge -/

/-- C8 counterexample.  The claim says a cursor-only update after a
role-only update leaves the participant with both role and cursor.  In the
code, a `cursor_position` message never touches the roster (the stored
participant still has no cursor), and a `user_presence` update replaces
the stored record wholesale (a cursor-only presence update erases the
previously known role). -/
theorem roster_merge_counterexample :
    mapGet (runMsgs sActiveEx [mPresenceEx, mCursorEx]).participants (some "7")
      = some { userRole := some "editor", cursorPosition := none }
    ∧ mapGet (runMsgs sActiveEx [mPresenceEx, mPresenceCursorEx]).participants
        (some "7")
      = some { userRole := none, cursorPosition := some ⟨1, 2, 3, 4⟩ } := by
  decide

/-- C8 amended.  `handleUserPresence` stores the incoming `user_info`
wholesale (`Map.set`), discarding any previously known fields absent from
the update, and `handleCursorPosition` does not modify the roster at all —
it only invokes the `onCursorChange` callback. -/
theorem presence_replaces_cursor_ignores_roster (s : CollabState)
    (m mc : WsMsg) (uid : String) (info : PInfo)
    (h1 : m.type = "user_presence") (h2 : m.user_id = some uid)
    (h3 : uid ≠ "") (h4 : m.user_info = some info)
    (h5 : mc.type = "cursor_position") :
    (handleMessage s m).1.participants = mapSet s.participants (some uid) info
    ∧ (handleMessage s mc).1 = s := by
  constructor
  · unfold handleMessage
    rw [h1, h2, h4]
    simp [h3]
  · unfold handleMessage
    rw [h5]
    rcases mc.user_id with _ | u <;> rcases mc.posCursor with _ | c <;>
      · simp
        try split
        all_goals rfl

/-- Witness for C8's amended theorem at concrete inputs. -/
theorem presence_replaces_cursor_ignores_roster_witness :
    (handleMessage sActiveEx mPresenceEx).1.participants
      = mapSet sActiveEx.participants (some "7") { userRole := some "editor" }
    ∧ (handleMessage sActiveEx mCursorEx).1 = sActiveEx :=
  presence_replaces_cursor_ignores_roster sActiveEx mPresenceEx mCursorEx "7"
    { userRole := some "editor" } rfl rfl (by decide) rfl rfl

/-! ## C10: disconnect() fully resets observable state -/

/-- C10.  Immediately after `disconnect()` returns, for every prior state:
`getParticipants()` is empty, `isConnected()` is false, and the internal
cursor map is empty. -/
theorem disconnect_resets_observable_state (s : CollabState) :
    getParticipants (disconnectFn s) = []
    ∧ isConnected (disconnectFn s) = false
    ∧ (disconnectFn s).cursors = [] := by
  refine ⟨rfl, ?_, rfl⟩
  unfold isConnected disconnectFn
  rfl

/-! ## C3: saveDocument issues a call unconditionally -/

theorem normalizeContent_ne_null (dt : DocType) (c : JsContent) :
    normalizeContent dt c ≠ .nullv := by
  unfold normalizeContent
  cases dt <;> cases c <;> simp

/-- C3 counterexample.  The claim says `saveDocument` is a no-op when a
save is in flight or when content structurally equals the last-saved
snapshot, so that two consecutive invocations issue one network call.  In
`sEdEx` a save is in flight (`saving = true`) and the content is
structurally equal to the stored document content — yet `saveDocument`
still issues the autosave network call, and two consecutive invocations
with no intervening edit issue two calls. -/
theorem saveDocument_inflight_counterexample :
    saveDocument sEdEx = .autoSaveCall (.obj 1 T0ex)
    ∧ sEdEx.saving = true
    ∧ autosaveCallCount sEdEx 2 = 2 := by decide

/-- C3 amended.  `saveDocument` issues the autosave network call on every
invocation with a loaded document (with the normalized content), without
consulting the in-flight flag or any last-saved snapshot; hence `n`
consecutive invocations with no intervening edit issue `n` network calls
(shown for `n = 2`). -/
theorem saveDocument_always_calls (s : EditorState) (d : LoadedDoc)
    (h : s.document = some d) :
    saveDocument s
      = .autoSaveCall (normalizeContent d.document_type s.content)
    ∧ autosaveCallCount s 2 = 2 := by
  have h1 : saveDocument s
      = .autoSaveCall (normalizeContent d.document_type s.content) := by
    unfold saveDocument
    rw [h]
    simp [normalizeContent_ne_null]
  refine ⟨h1, ?_⟩
  unfold autosaveCallCount
  rw [h1]
  rfl

/-- Witness for C3's amended theorem at the concrete state `sEdEx`. -/
theorem saveDocument_always_calls_witness :
    saveDocument sEdEx
      = .autoSaveCall (normalizeContent DocType.rich_text sEdEx.content)
    ∧ autosaveCallCount sEdEx 2 = 2 :=
  saveDocument_always_calls sEdEx
    { title := "A", content := .obj 0 T0ex, document_type := .rich_text } rfl

/-! ## C4: the dirtiness check is reference identity -/

/-- C4 counterexample.  The claim says a fresh but structurally-equal
content tree yields not-dirty.  The guard is `content !== document.content`,
a reference comparison: with the same tree `T0ex` under two different
object references it reports dirty (`true`). -/
theorem dirty_check_counterexample :
    autosaveDirty (.obj 1 T0ex) "A" (.obj 0 T0ex) "A" = true := by decide

/-- C4 amended.  The dirtiness check is reference identity, not structural
equality: under the same reference it is clean regardless of tree
contents, and under distinct references it is dirty even for structurally
equal trees (any edit that rebuilds the tree — including changing a leaf
text — therefore reads as dirty). -/
theorem dirty_check_reference_identity (r1 r2 : Nat) (t1 t2 : RichDoc)
    (ttl : String) (h : r1 ≠ r2) :
    autosaveDirty (.obj r1 t1) ttl (.obj r1 t2) ttl = false
    ∧ autosaveDirty (.obj r1 t1) ttl (.obj r2 t2) ttl = true := by
  unfold autosaveDirty jsStrictEq
  simp [h]

/-- Witness for C4's amended theorem at concrete references and trees. -/
theorem dirty_check_reference_identity_witness :
    autosaveDirty (.obj 1 T0ex) "A" (.obj 1 T0ex) "A" = false
    ∧ autosaveDirty (.obj 1 T0ex) "A" (.obj 0 T0ex) "A" = true :=
  dirty_check_reference_identity 1 0 T0ex T0ex "A" (by decide)

/-! ## C9: the decoder skips unknown elements -/

theorem parseTop_unknown (tag : String) (attrs : EAttrs) (cs : List Dom)
    (h : tag ∉ recognizedTags) :
    parseTop (.elem tag attrs cs) = [] := by
  unfold parseTop
  split <;> simp_all [recognizedTags]

/-- C9.  The decoder is a total function of the surface tree (it cannot
throw), and unknown/unsupported elements contribute no nodes: deleting an
unrecognized element from the input leaves the decoded document unchanged,
wherever it occurs. -/
theorem unknown_elements_skipped (l1 l2 : List Dom) (tag : String)
    (attrs : EAttrs) (cs : List Dom) (h : tag ∉ recognizedTags) :
    parseHtmlToRichContent (l1 ++ [.elem tag attrs cs] ++ l2)
      = parseHtmlToRichContent (l1 ++ l2) := by
  unfold parseHtmlToRichContent
  simp [List.map_append, List.flatten_append, parseTop_unknown tag attrs cs h]

/-- Witness for C9: a `div` with content between two paragraphs is
skipped. -/
theorem unknown_elements_skipped_witness :
    parseHtmlToRichContent
        ([Dom.elem "p" {} [Dom.text "a"]]
          ++ [Dom.elem "div" {} [Dom.text "b"]] ++ [])
      = parseHtmlToRichContent ([Dom.elem "p" {} [Dom.text "a"]] ++ []) :=
  unknown_elements_skipped [Dom.elem "p" {} [Dom.text "a"]] [] "div" {}
    [Dom.text "b"] (by decide)

/-! ## C1: the codec round-trip -/

/-- C1 counterexample.  The round-trip fails on the full node grammar: a
heading whose text run carries a bold mark loses the mark (the encoder
emits only the raw text of `content[0]`, the decoder rebuilds an unmarked
run).  The tree contains no empty paragraphs, so empty-paragraph
normalization is irrelevant here. -/
theorem codec_roundtrip_counterexample :
    parseHtmlToRichContent (renderRichContent
        ⟨[.heading (some 1) [{ text := "a", marks := some [.strong] }]]⟩)
      ≠ ⟨[.heading (some 1) [{ text := "a", marks := some [.strong] }]]⟩ := by
  decide

/-! ### Round-trip helper lemmas -/

theorem domTextList_ifText (t : String) :
    domTextList (if t = "" then [] else [Dom.text t]) = t := by
  by_cases h : t = ""
  · simp [h, domTextList]
  · simp [h, domTextList, domText, strAppend_empty]

theorem jsTrim_empty : jsTrim "" = "" := by decide

theorem removeFirstSub_self_append (pat rest : List Char) :
    removeFirstSub pat (pat ++ rest) = rest := by
  have hpre : pat.isPrefixOf (pat ++ rest) = true := by
    rw [List.isPrefixOf_iff_prefix]
    exact List.prefix_append pat rest
  cases hc : pat ++ rest with
  | nil =>
      have hpr := List.append_eq_nil.mp hc
      rw [hpr.1, hpr.2]
      decide
  | cons c cs =>
      rw [hc] at hpre
      simp only [removeFirstSub, hpre, if_true]
      rw [← hc]
      exact List.drop_left pat rest

theorem jsReplaceOnce_prefixed (l : String) :
    jsReplaceOnce ("language-" ++ l) "language-" = l := by
  unfold jsReplaceOnce
  rw [String.data_append, removeFirstSub_self_append]

theorem jsOr_some_dflt_empty (s : String) : jsOr (some s) "" = s := by
  unfold jsOr
  by_cases h : s = "" <;> simp [h]

theorem marksOf_cons (a : AncElem) (anc : List AncElem) :
    marksOf (a :: anc) = elemMarks a ++ marksOf anc := by
  unfold marksOf
  simp

/-- One mark wrap, viewed by the decoder's tree walker: wrapping with a
valid mark adds exactly that mark at the outer end of the collected
marks. -/
theorem wrapMark_runs (m : Mark) (hm : validMark m = true) (d : List Dom)
    (t : String) (P : List Mark)
    (hd : ∀ anc, runsUnderList anc d = [{ text := t, marks := optMarks (P ++ marksOf anc) }]) :
    ∀ anc, runsUnderList anc (wrapMark m d)
      = [{ text := t, marks := optMarks ((P ++ [m]) ++ marksOf anc) }] := by
  intro anc
  cases m with
  | strong =>
      simp only [wrapMark, runsUnderList, runsUnder, List.append_nil, hd,
        marksOf_cons, elemMarks]
      simp [List.append_assoc]
  | em =>
      simp only [wrapMark, runsUnderList, runsUnder, List.append_nil, hd,
        marksOf_cons, elemMarks]
      simp [List.append_assoc]
  | underline =>
      simp only [wrapMark, runsUnderList, runsUnder, List.append_nil, hd,
        marksOf_cons, elemMarks]
      simp [List.append_assoc]
  | code =>
      simp only [wrapMark, runsUnderList, runsUnder, List.append_nil, hd,
        marksOf_cons, elemMarks]
      simp [List.append_assoc]
  | textStyle co bg =>
      rcases co with _ | c <;> rcases bg with _ | b
      · simp [validMark] at hm
      · -- background-only mark
        have hbne : b ≠ "" := by
          unfold validMark at hm
          rw [Bool.and_eq_true] at hm
          exact of_decide_eq_true hm.1
        have hwrap : wrapMark (Mark.textStyle none (some b)) d
            = [Dom.elem "span" { styleBg := some b } d] := by
          simp [wrapMark, truthyS, hbne]
        have hem : elemMarks ⟨"span", { styleBg := some b }⟩
            = if truthyS (some b) then [Mark.textStyle none (some b)] else [] := rfl
        have hem2 : elemMarks ⟨"span", { styleBg := some b }⟩
            = [Mark.textStyle none (some b)] := by
          rw [hem]
          simp [truthyS, hbne]
        rw [hwrap]
        simp only [runsUnderList, runsUnder, List.append_nil, hd,
          marksOf_cons, hem2]
        simp [List.append_assoc]
      · -- color-only mark
        have hcne : c ≠ "" := by
          unfold validMark at hm
          rw [Bool.and_eq_true] at hm
          exact of_decide_eq_true hm.1
        have hwrap : wrapMark (Mark.textStyle (some c) none) d
            = [Dom.elem "span" { styleColor := some c } d] := by
          simp [wrapMark, truthyS, hcne]
        have hem : elemMarks ⟨"span", { styleColor := some c }⟩
            = (if truthyS (some c) then [Mark.textStyle (some c) none] else []) ++ [] := rfl
        have hem2 : elemMarks ⟨"span", { styleColor := some c }⟩
            = [Mark.textStyle (some c) none] := by
          rw [hem]
          simp [truthyS, hcne]
        rw [hwrap]
        simp only [runsUnderList, runsUnder, List.append_nil, hd,
          marksOf_cons, hem2]
        simp [List.append_assoc]
      · simp [validMark] at hm

/-- Iterating mark wraps appends the whole mark list, in order. -/
theorem applyMarks_runs (ms : List Mark) (hms : ms.all validMark = true)
    (d : List Dom) (t : String) (P : List Mark)
    (hd : ∀ anc, runsUnderList anc d = [{ text := t, marks := optMarks (P ++ marksOf anc) }]) :
    ∀ anc, runsUnderList anc (applyMarks ms d)
      = [{ text := t, marks := optMarks ((P ++ ms) ++ marksOf anc) }] := by
  induction ms generalizing d P with
  | nil =>
      intro anc
      simp only [applyMarks, hd, List.append_nil]
  | cons m rest ih =>
      intro anc
      rw [List.all_cons, Bool.and_eq_true] at hms
      have step := wrapMark_runs m hms.1 d t P hd
      have := ih hms.2 (wrapMark m d) (P ++ [m]) step
      simp only [applyMarks, this]
      have he : (P ++ [m]) ++ rest = P ++ (m :: rest) := by simp
      rw [he]

/-! ### Round-trip, per node kind -/

/-- A paragraph in the subclass round-trips. -/
theorem parseTop_render_paragraph (r : TextRun) (h : simpleParaRun r = true) :
    parseTop (renderNode (.paragraph [r])) = [.paragraph [r]] := by
  obtain ⟨t, mks⟩ := r
  cases mks with
  | none =>
      by_cases ht : t = ""
      · subst ht
        decide
      · have hcs : renderNode (RichNode.paragraph [⟨t, none⟩])
            = Dom.elem "p" {} [Dom.text t] := by
          simp [renderNode, renderRun, ht]
        rw [hcs]
        have hp : parseTop (Dom.elem "p" {} [Dom.text t])
            = [RichNode.paragraph (parseTextContent [Dom.text t])] := rfl
        rw [hp]
        by_cases htr : jsTrim t = ""
        · have hru : runsUnderList [] [Dom.text t] = [] := by
            simp [runsUnderList, runsUnder, htr]
          simp [parseTextContent, hru, domTextList, domText, strAppend_empty]
        · have hru : runsUnderList [] [Dom.text t]
              = [{ text := t, marks := none }] := by
            simp [runsUnderList, runsUnder, htr, optMarks, marksOf]
          simp [parseTextContent, hru]
  | some ms =>
      unfold simpleParaRun at h
      rw [Bool.and_eq_true] at h
      obtain ⟨hsafe, hrest⟩ := h
      cases ms with
      | nil => simp at hrest
      | cons m0 mrest =>
          rw [Bool.and_eq_true] at hrest
          obtain ⟨hall, htrb⟩ := hrest
          have htr : jsTrim t ≠ "" := by
            intro he
            rw [he] at htrb
            simp at htrb
          have ht : t ≠ "" := by
            intro he
            apply htr
            rw [he]
            exact jsTrim_empty
          have hbase : ∀ anc, runsUnderList anc [Dom.text t]
              = [{ text := t, marks := optMarks ([] ++ marksOf anc) }] := by
            intro anc
            simp [runsUnderList, runsUnder, htr]
          have hruns := applyMarks_runs (m0 :: mrest) hall [Dom.text t] t [] hbase
          have hcs : renderNode (RichNode.paragraph [⟨t, some (m0 :: mrest)⟩])
              = Dom.elem "p" {} (applyMarks (m0 :: mrest) [Dom.text t]) := by
            cases hap : applyMarks (m0 :: mrest) [Dom.text t] with
            | nil =>
                exfalso
                have hz := hruns []
                rw [hap] at hz
                simp [runsUnderList] at hz
            | cons a as =>
                simp [renderNode, renderRun, ht, hap]
          rw [hcs]
          have hp : parseTop (Dom.elem "p" {} (applyMarks (m0 :: mrest) [Dom.text t]))
              = [RichNode.paragraph
                  (parseTextContent (applyMarks (m0 :: mrest) [Dom.text t]))] := rfl
          rw [hp]
          have hr1 : runsUnderList [] (applyMarks (m0 :: mrest) [Dom.text t])
              = [{ text := t, marks := some (m0 :: mrest) }] := by
            rw [hruns []]
            simp [marksOf, optMarks]
          simp [parseTextContent, hr1]

/-- Core of the heading cases: the decoder rebuilds the rendered heading's
text via `textContent`. -/
theorem heading_case (l : Nat) (t : String)
    (e : parseTop (renderNode (RichNode.heading (some l) [⟨t, none⟩]))
        = [RichNode.heading (some l)
            [{ text := domTextList (if t = "" then [] else [Dom.text t]),
               marks := none }]]) :
    parseTop (renderNode (RichNode.heading (some l) [⟨t, none⟩]))
      = [RichNode.heading (some l) [{ text := t, marks := none }]] := by
  rw [e, domTextList_ifText]

/-- A heading of level 1-6 with a single unmarked run round-trips. -/
theorem parseTop_render_heading (l : Nat) (h1 : 1 ≤ l) (h6 : l ≤ 6)
    (r : TextRun) (hr : plainRun r = true) :
    parseTop (renderNode (.heading (some l) [r])) = [.heading (some l) [r]] := by
  obtain ⟨t, mks⟩ := r
  cases mks with
  | some ms => simp [plainRun] at hr
  | none => interval_cases l <;> exact heading_case _ t rfl

/-- A blockquote holding one paragraph with one unmarked run round-trips. -/
theorem parseTop_render_blockquote (r : TextRun) (hr : plainRun r = true) :
    parseTop (renderNode (.blockquote [[r]])) = [.blockquote [[r]]] := by
  obtain ⟨t, mks⟩ := r
  cases mks with
  | some ms => simp [plainRun] at hr
  | none =>
      have e : parseTop (renderNode (RichNode.blockquote [[⟨t, none⟩]]))
          = [RichNode.blockquote
              [[{ text := domTextList (if t = "" then [] else [Dom.text t]),
                  marks := none }]]] := rfl
      rw [e, domTextList_ifText]

/-- `querySelector('code')` on a rendered code block finds its one child. -/
theorem firstCode_code_singleton (a : EAttrs) (cs : List Dom) :
    firstCode [Dom.elem "code" a cs] = some (Dom.elem "code" a cs) := by
  simp [firstCode]

/-- A code block with explicit language and one unmarked run round-trips. -/
theorem parseTop_render_codeBlock (lang : String) (r : TextRun)
    (hr : plainRun r = true) :
    parseTop (renderNode (.codeBlock (some lang) [r]))
      = [.codeBlock (some lang) [r]] := by
  obtain ⟨t, mks⟩ := r
  cases mks with
  | some ms => simp [plainRun] at hr
  | none =>
      have e1 : renderNode (RichNode.codeBlock (some lang) [⟨t, none⟩])
          = Dom.elem "pre" {}
              [Dom.elem "code" { className := some ("language-" ++ jsOr (some lang) "") }
                (if t = "" then [] else [Dom.text t])] := rfl
      rw [e1]
      have hp : parseTop (Dom.elem "pre" {}
            [Dom.elem "code" { className := some ("language-" ++ jsOr (some lang) "") }
              (if t = "" then [] else [Dom.text t])])
          = [RichNode.codeBlock
              (some (jsReplaceOnce ("language-" ++ jsOr (some lang) "") "language-"))
              [{ text := domTextList (if t = "" then [] else [Dom.text t]),
                 marks := none }]] := by
        simp only [parseTop, firstCode_code_singleton]
        simp [domText]
      rw [hp, domTextList_ifText, jsOr_some_dflt_empty, jsReplaceOnce_prefixed]

/-- One list item of the subclass is rebuilt from its `textContent`. -/
theorem item_roundtrip (it : LItem) (h : simpleItem it = true) :
    LItem.mk [[{ text := domText (renderItem it), marks := none }]] = it := by
  obtain ⟨ps⟩ := it
  rcases ps with _ | ⟨p, _ | ⟨p2, ps2⟩⟩
  · simp [simpleItem] at h
  · rcases p with _ | ⟨r, _ | ⟨r2, rs2⟩⟩
    · simp [simpleItem] at h
    · obtain ⟨t, mks⟩ := r
      cases mks with
      | some ms => simp [simpleItem, plainRun] at h
      | none =>
          have e : domText (renderItem ⟨[[⟨t, none⟩]]⟩)
              = domTextList (if t = "" then [] else [Dom.text t]) := rfl
          rw [e, domTextList_ifText]
    · simp [simpleItem] at h
  · simp [simpleItem] at h

/-- `element.children` of a rendered list is the rendered items. -/
theorem elemChildren_renderItems (items : List LItem) :
    elemChildren (items.map renderItem) = items.map renderItem := by
  unfold elemChildren
  induction items with
  | nil => rfl
  | cons it rest ih =>
      have hf : (fun d => match d with
          | Dom.elem _ _ _ => true
          | Dom.text _ => false) (renderItem it) = true := rfl
      simp only [List.map_cons, List.filter_cons, hf, if_true]
      rw [ih]

/-- Mapping the decoder's item builder over rendered items restores them. -/
theorem items_roundtrip (items : List LItem) (h : items.all simpleItem = true) :
    ((items.map renderItem).map fun li =>
        LItem.mk [[{ text := domText li, marks := none }]]) = items := by
  induction items with
  | nil => rfl
  | cons it rest ih =>
      rw [List.all_cons, Bool.and_eq_true] at h
      simp only [List.map_cons]
      rw [item_roundtrip it h.1, ih h.2]

/-- A bullet list of subclass items round-trips. -/
theorem parseTop_render_bulletList (items : List LItem)
    (h : items.all simpleItem = true) :
    parseTop (renderNode (.bulletList items)) = [.bulletList items] := by
  have e : parseTop (renderNode (RichNode.bulletList items))
      = [RichNode.bulletList ((elemChildren (items.map renderItem)).map
          fun li => LItem.mk [[{ text := domText li, marks := none }]])] := rfl
  rw [e, elemChildren_renderItems, items_roundtrip items h]

/-- An ordered list of subclass items round-trips. -/
theorem parseTop_render_orderedList (items : List LItem)
    (h : items.all simpleItem = true) :
    parseTop (renderNode (.orderedList items)) = [.orderedList items] := by
  have e : parseTop (renderNode (RichNode.orderedList items))
      = [RichNode.orderedList ((elemChildren (items.map renderItem)).map
          fun li => LItem.mk [[{ text := domText li, marks := none }]])] := rfl
  rw [e, elemChildren_renderItems, items_roundtrip items h]

/-- Every node of the subclass round-trips through the codec. -/
theorem parseTop_renderNode_simple (n : RichNode) (h : simpleNode n = true) :
    parseTop (renderNode n) = [n] := by
  cases n with
  | heading lvl rs =>
      rcases lvl with _ | l
      · simp [simpleNode] at h
      · rcases rs with _ | ⟨r, _ | ⟨r2, rs2⟩⟩
        · simp [simpleNode] at h
        · simp only [simpleNode, Bool.and_eq_true, decide_eq_true_eq] at h
          exact parseTop_render_heading l h.1.1 h.1.2 r h.2
        · simp [simpleNode] at h
  | paragraph rs =>
      rcases rs with _ | ⟨r, _ | ⟨r2, rs2⟩⟩
      · simp [simpleNode] at h
      · exact parseTop_render_paragraph r (by simpa [simpleNode] using h)
      · simp [simpleNode] at h
  | bulletList items =>
      exact parseTop_render_bulletList items (by simpa [simpleNode] using h)
  | orderedList items =>
      exact parseTop_render_orderedList items (by simpa [simpleNode] using h)
  | blockquote ps =>
      rcases ps with _ | ⟨p, _ | ⟨p2, ps2⟩⟩
      · simp [simpleNode] at h
      · rcases p with _ | ⟨r, _ | ⟨r2, rs2⟩⟩
        · simp [simpleNode] at h
        · exact parseTop_render_blockquote r (by simpa [simpleNode] using h)
        · simp [simpleNode] at h
      · simp [simpleNode] at h
  | codeBlock lang rs =>
      rcases lang with _ | l
      · simp [simpleNode] at h
      · rcases rs with _ | ⟨r, _ | ⟨r2, rs2⟩⟩
        · simp [simpleNode] at h
        · simp only [simpleNode, Bool.and_eq_true] at h
          exact parseTop_render_codeBlock l r h.1
        · simp [simpleNode] at h
  | image src alt w hh => simp [simpleNode] at h

/-- List-level assembly of the per-node round-trip. -/
theorem parse_render_nodes (ns : List RichNode) (h : ns.all simpleNode = true) :
    ((ns.map renderNode).map parseTop).flatten = ns := by
  induction ns with
  | nil => rfl
  | cons n rest ih =>
      rw [List.all_cons, Bool.and_eq_true] at h
      simp only [List.map_cons, List.flatten_cons]
      rw [parseTop_renderNode_simple n h.1, ih h.2]
      rfl

/-- C1 amended.  On the subclass `simpleDoc` — single-run blocks with safe
text, heading levels 1-6, valid single-color marks on non-whitespace
paragraph text, explicit code-block language, no images — decoding the
encoded surface form restores the tree exactly:
`parseHtmlToRichContent (renderRichContent T) = T`. -/
theorem codec_roundtrip_simple (d : RichDoc) (h : simpleDoc d = true) :
    parseHtmlToRichContent (renderRichContent d) = d := by
  obtain ⟨ns⟩ := d
  unfold simpleDoc at h
  unfold parseHtmlToRichContent renderRichContent
  rw [parse_render_nodes ns h]

/-- Witness for C1's amended theorem: a concrete subclass document with
every supported node kind round-trips. -/
theorem codec_roundtrip_simple_witness :
    simpleDoc TsimpleEx = true
    ∧ parseHtmlToRichContent (renderRichContent TsimpleEx) = TsimpleEx :=
  ⟨by decide, codec_roundtrip_simple TsimpleEx (by decide)⟩


end SmartCollab
